import Mathlib

/-!
Shallow embedding of the probability engine of the rs3-drop-calculator
repository.  Numbers that the source manipulates as IEEE doubles are
modelled as exact real numbers; code that throws is modelled with
`Option` (`none` = the function raised).  Trial counts and loop indices
are natural numbers.

Sources embedded:
* `src/lib/calculations/dropRate.ts`
* `src/lib/calculations/luck.ts`
* `src/lib/calculations/badLuckMitigation.ts`
* `src/lib/calculations/tableBased.ts`
* `src/components/ModifiersPanel.tsx` (enrage scaling)
* graph data generator (`generateAttemptValues`)
-/

namespace DropCalc

noncomputable section

/-- `MAX_PROBABILITY` constant from `dropRate.ts`. -/
def MAX_PROBABILITY : ℝ := 0.9999

/-- `calculateBaseProbability` from `dropRate.ts`: throws for a
non-positive drop rate, otherwise returns `1 / dropRate`. -/
def calculateBaseProbability (dropRate : ℝ) : Option ℝ :=
  if dropRate ≤ 0 then none else some (1 / dropRate)

/-- `calculateCumulativeProbability` from `dropRate.ts`.
The `attempts < 0` guard of the source is vacuous for `ℕ`; the
`attempts === 0` early return precedes the rate validation performed
inside `calculateBaseProbability`. -/
def calculateCumulativeProbability (attempts : ℕ) (dropRate : ℝ) : Option ℝ :=
  if attempts = 0 then some 0
  else
    (calculateBaseProbability dropRate).map fun baseProbability =>
      min (1 - (1 - baseProbability) ^ attempts) MAX_PROBABILITY

/-- `findMilestoneAttempts` from `dropRate.ts`: validates the target,
caps it at `MAX_PROBABILITY`, then returns
`ceil (log (1 - cappedTarget) / log (1 - p))`. -/
def findMilestoneAttempts (targetProbability dropRate : ℝ) : Option ℤ :=
  if targetProbability ≤ 0 ∨ 1 ≤ targetProbability then none
  else
    (calculateBaseProbability dropRate).map fun baseProbability =>
      ⌈Real.log (1 - min targetProbability MAX_PROBABILITY) /
        Real.log (1 - baseProbability)⌉

/-- `LOTD_MULTIPLIER` constant from `luck.ts`. -/
def LOTD_MULTIPLIER : ℝ := 1.01

/-- `applyLuckToDropRate` from `luck.ts`. -/
def applyLuckToDropRate (baseDenominator : ℝ) : Option ℝ :=
  if baseDenominator ≤ 0 then none
  else some (baseDenominator / LOTD_MULTIPLIER)

/-- `calculateCumulativeProbabilityWithLuck` from `luck.ts`. -/
def calculateCumulativeProbabilityWithLuck (attempts : ℕ) (baseDenominator : ℝ) :
    Option ℝ :=
  match applyLuckToDropRate baseDenominator with
  | none => none
  | some improvedDenominator => calculateCumulativeProbability attempts improvedDenominator

/-- `getDropRateForKill` from `badLuckMitigation.ts`.  The kill number and
mitigation start are (non-negative) integers, so the source's
`killNumber <= 0` and `mitigationStart < 0` guards become `killNumber = 0`
and a vacuous check. -/
def getDropRateForKill (killNumber : ℕ) (baseDenominator : ℝ)
    (mitigationStart : ℕ) (mitigationCap : ℝ) : Option ℝ :=
  if killNumber = 0 then none
  else if baseDenominator ≤ 0 then none
  else if mitigationCap ≤ 0 then none
  else if killNumber ≤ mitigationStart then some baseDenominator
  else some (max (baseDenominator - ((killNumber - mitigationStart : ℕ) : ℝ)) mitigationCap)

/-- The value returned by a successful `getDropRateForKill` call. -/
def killDen (killNumber : ℕ) (baseDenominator : ℝ)
    (mitigationStart : ℕ) (mitigationCap : ℝ) : ℝ :=
  if killNumber ≤ mitigationStart then baseDenominator
  else max (baseDenominator - ((killNumber - mitigationStart : ℕ) : ℝ)) mitigationCap

/-- The kill-by-kill loop of `calculateCumulativeProbabilityWithBLM`:
the running product of the per-kill no-drop probabilities over kills
`1 .. attempts`, propagating any validation failure. -/
def blmFold (attempts : ℕ) (baseDenominator : ℝ)
    (mitigationStart : ℕ) (mitigationCap : ℝ) : Option ℝ :=
  match attempts with
  | 0 => some 1
  | k + 1 =>
    match blmFold k baseDenominator mitigationStart mitigationCap,
        getDropRateForKill (k + 1) baseDenominator mitigationStart mitigationCap with
    | some probabilityOfNoDrop, some dropRateDenominator =>
      some (probabilityOfNoDrop * (1 - 1 / dropRateDenominator))
    | _, _ => none

/-- `calculateCumulativeProbabilityWithBLM` from `badLuckMitigation.ts`. -/
def calculateCumulativeProbabilityWithBLM (attempts : ℕ) (baseDenominator : ℝ)
    (mitigationStart : ℕ) (mitigationCap : ℝ) : Option ℝ :=
  if attempts = 0 then some 0
  else
    (blmFold attempts baseDenominator mitigationStart mitigationCap).map
      fun probabilityOfNoDrop => min (1 - probabilityOfNoDrop) 0.9999

/-- `calculateCumulativeProbabilityWithLuckAndBLM` from `luck.ts`:
the multiplier is applied both to the base denominator and to the
mitigation cap before the kill-by-kill fold. -/
def calculateCumulativeProbabilityWithLuckAndBLM (attempts : ℕ) (baseDenominator : ℝ)
    (mitigationStart : ℕ) (mitigationCap : ℝ) : Option ℝ :=
  if attempts = 0 then some 0
  else
    match applyLuckToDropRate baseDenominator, applyLuckToDropRate mitigationCap with
    | some improvedBaseDenominator, some improvedMitigationCap =>
      (blmFold attempts improvedBaseDenominator mitigationStart improvedMitigationCap).map
        fun probabilityOfNoDrop => min (1 - probabilityOfNoDrop) 0.9999
    | _, _ => none

/-- Result record of `compareAllModifiers` from `luck.ts`. -/
structure ModifierComparison where
  base : ℝ
  withLuck : ℝ
  withBLM : ℝ
  withBoth : ℝ
  luckSavings : ℝ
  blmSavings : ℝ
  bothSavings : ℝ

/-- `compareAllModifiers` from `luck.ts`. -/
def compareAllModifiers (attempts : ℕ) (baseDenominator : ℝ)
    (mitigationStart : ℕ) (mitigationCap : ℝ) : Option ModifierComparison :=
  match calculateCumulativeProbability attempts baseDenominator,
      calculateCumulativeProbabilityWithLuck attempts baseDenominator,
      calculateCumulativeProbabilityWithBLM attempts baseDenominator
        mitigationStart mitigationCap,
      calculateCumulativeProbabilityWithLuckAndBLM attempts baseDenominator
        mitigationStart mitigationCap with
  | some base, some withLuck, some withBLM, some withBoth =>
    some ⟨base, withLuck, withBLM, withBoth,
      withLuck - base, withBLM - base, withBoth - base⟩
  | _, _, _, _ => none

/-- `calculateTableHitProbability` from `tableBased.ts`. -/
def calculateTableHitProbability (numerator denominator : ℝ) : Option ℝ :=
  if numerator ≤ 0 ∨ denominator ≤ 0 then none
  else if denominator < numerator then none
  else some (numerator / denominator)

/-- `calculateItemFromTableProbability` from `tableBased.ts`. -/
def calculateItemFromTableProbability (itemWeight totalWeight : ℝ) : Option ℝ :=
  if itemWeight ≤ 0 ∨ totalWeight ≤ 0 then none
  else if totalWeight < itemWeight then none
  else some (itemWeight / totalWeight)

/-- `calculateTableBasedDropRate` from `tableBased.ts`. -/
def calculateTableBasedDropRate (tableNumerator tableDenominator itemWeight totalWeight : ℝ) :
    Option ℝ :=
  match calculateTableHitProbability tableNumerator tableDenominator,
      calculateItemFromTableProbability itemWeight totalWeight with
  | some tableProb, some itemProb => some (1 / (tableProb * itemProb))
  | _, _ => none

/-- The closed set of enrage-scaling bosses (`EnrageScalingBoss` union type
in `ModifiersPanel.tsx`). -/
inductive EnrageScalingBoss where
  | telos
  | zamorak
  | arch_glacor
deriving DecidableEq

/-- `calculateTelosDropRate` from `ModifiersPanel.tsx`. -/
def calculateTelosDropRate (enrage baseDropRate : ℝ) : Option ℝ :=
  if enrage < 0 ∨ 4000 < enrage then none
  else some (baseDropRate / (1 + enrage / 1000))

/-- `calculateZamorakDropRate` from `ModifiersPanel.tsx`. -/
def calculateZamorakDropRate (enrage baseDropRate : ℝ) : Option ℝ :=
  if enrage < 0 ∨ 4000 < enrage then none
  else some (baseDropRate / (1 + enrage / 800))

/-- `calculateArchGlacorDropRate` from `ModifiersPanel.tsx`. -/
def calculateArchGlacorDropRate (enrage baseDropRate : ℝ) : Option ℝ :=
  if enrage < 0 then none
  else some (baseDropRate / (1 + enrage / 1200))

/-- `calculateEnrageScaledDropRate` from `ModifiersPanel.tsx`. -/
def calculateEnrageScaledDropRate (boss : EnrageScalingBoss) (enrage baseDropRate : ℝ) :
    Option ℝ :=
  match boss with
  | .telos => calculateTelosDropRate enrage baseDropRate
  | .zamorak => calculateZamorakDropRate enrage baseDropRate
  | .arch_glacor => calculateArchGlacorDropRate enrage baseDropRate

/-- The declared enrage domain of each boss (the range accepted by the
validation in the corresponding `calculate*DropRate` function). -/
def enrageDomain (boss : EnrageScalingBoss) (enrage : ℝ) : Prop :=
  match boss with
  | .telos => 0 ≤ enrage ∧ enrage ≤ 4000
  | .zamorak => 0 ≤ enrage ∧ enrage ≤ 4000
  | .arch_glacor => 0 ≤ enrage

/-- `calculateCumulativeProbabilityWithEnrage` from `ModifiersPanel.tsx`. -/
def calculateCumulativeProbabilityWithEnrage (attempts : ℕ) (boss : EnrageScalingBoss)
    (enrage baseDropRate : ℝ) : Option ℝ :=
  if attempts = 0 then some 0
  else
    (calculateEnrageScaledDropRate boss enrage baseDropRate).map fun scaledDropRate =>
      min (1 - (1 - 1 / scaledDropRate) ^ attempts) 0.9999

end

/-- The step size of `generateAttemptValues`
(`Math.ceil(maxAttempts / (maxDataPoints - 1))`, computed over exact
rationals). -/
def genStep (maxAttempts maxDataPoints : ℕ) : ℕ :=
  (⌈(maxAttempts : ℚ) / ((maxDataPoints : ℚ) - 1)⌉).toNat

/-- The `for (let i = step; i < maxAttempts; i += step)` loop of
`generateAttemptValues`, with an explicit fuel bound (`maxAttempts`
iterations always suffice, as the index grows by `step ≥ 1` each turn;
for `step = 0` the source loop would not terminate at all). -/
def attemptLoop (fuel i step maxAttempts : ℕ) : List ℕ :=
  match fuel with
  | 0 => []
  | fuel + 1 =>
    if i < maxAttempts then i :: attemptLoop fuel (i + step) step maxAttempts
    else []

/-- `generateAttemptValues` from the graph data generator: pushes `0`,
then the evenly spaced loop values, then `maxAttempts` unless it is
already the last element. -/
def generateAttemptValues (maxAttempts : ℕ) (maxDataPoints : ℕ) : List ℕ :=
  let step := genStep maxAttempts maxDataPoints
  let attempts := 0 :: attemptLoop maxAttempts step step maxAttempts
  if attempts.getLast (List.cons_ne_nil 0 _) = maxAttempts then attempts
  else attempts ++ [maxAttempts]

/-! ### Value lemmas: what the embedded functions return on valid input -/

theorem calculateCumulativeProbability_eq {attempts : ℕ} (h : attempts ≠ 0)
    {dropRate : ℝ} (hd : 0 < dropRate) :
    calculateCumulativeProbability attempts dropRate =
      some (min (1 - (1 - 1 / dropRate) ^ attempts) MAX_PROBABILITY) := by
  simp [calculateCumulativeProbability, calculateBaseProbability, h, not_le.mpr hd]

theorem getDropRateForKill_eq {killNumber : ℕ} (hk : killNumber ≠ 0)
    {baseDenominator : ℝ} (hd : 0 < baseDenominator)
    (mitigationStart : ℕ) {mitigationCap : ℝ} (hc : 0 < mitigationCap) :
    getDropRateForKill killNumber baseDenominator mitigationStart mitigationCap =
      some (killDen killNumber baseDenominator mitigationStart mitigationCap) := by
  simp only [getDropRateForKill, killDen, hk, if_false,
    not_le.mpr hd, not_le.mpr hc, ite_false]
  split_ifs <;> rfl

theorem blmFold_eq (attempts : ℕ) {baseDenominator : ℝ} (hd : 0 < baseDenominator)
    (mitigationStart : ℕ) {mitigationCap : ℝ} (hc : 0 < mitigationCap) :
    blmFold attempts baseDenominator mitigationStart mitigationCap =
      some (∏ k ∈ Finset.range attempts,
        (1 - 1 / killDen (k + 1) baseDenominator mitigationStart mitigationCap)) := by
  induction attempts with
  | zero => simp [blmFold]
  | succ k ih =>
    rw [blmFold, ih, getDropRateForKill_eq (Nat.succ_ne_zero k) hd mitigationStart hc,
      Finset.prod_range_succ]

/-! ### Bounds on the per-kill effective denominator -/

theorem one_le_killDen {killNumber : ℕ} {baseDenominator : ℝ} {mitigationStart : ℕ}
    {mitigationCap : ℝ} (hd : 1 ≤ baseDenominator) (hc : 1 ≤ mitigationCap) :
    1 ≤ killDen killNumber baseDenominator mitigationStart mitigationCap := by
  unfold killDen
  split_ifs
  · exact hd
  · exact le_trans hc (le_max_right _ _)

theorem killDen_le_base {killNumber : ℕ} {baseDenominator : ℝ} {mitigationStart : ℕ}
    {mitigationCap : ℝ} (hcd : mitigationCap ≤ baseDenominator) :
    killDen killNumber baseDenominator mitigationStart mitigationCap ≤ baseDenominator := by
  unfold killDen
  split_ifs
  · exact le_rfl
  · exact max_le (sub_le_self _ (by positivity)) hcd

theorem killDen_mono {killNumber : ℕ} {d d' : ℝ} {mitigationStart : ℕ} {c c' : ℝ}
    (hd : d' ≤ d) (hc : c' ≤ c) :
    killDen killNumber d' mitigationStart c' ≤ killDen killNumber d mitigationStart c := by
  unfold killDen
  split_ifs
  · exact hd
  · exact max_le_max (sub_le_sub_right hd _) hc

theorem killDen_ge_min {killNumber : ℕ} {baseDenominator : ℝ} {mitigationStart : ℕ}
    {mitigationCap : ℝ} :
    min baseDenominator mitigationCap ≤
      killDen killNumber baseDenominator mitigationStart mitigationCap := by
  unfold killDen
  split_ifs
  · exact min_le_left _ _
  · exact le_trans (min_le_right _ _) (le_max_right _ _)

/-! ### Arithmetic helper lemmas -/

theorem factor_nonneg {a : ℝ} (h : 1 ≤ a) : 0 ≤ 1 - 1 / a :=
  sub_nonneg.mpr ((div_le_one (lt_of_lt_of_le one_pos h)).mpr h)

theorem factor_lt_one {a : ℝ} (h : 0 < a) : 1 - 1 / a < 1 :=
  sub_lt_self _ (by positivity)

theorem factor_le_factor {a b : ℝ} (ha : 0 < a) (hab : a ≤ b) :
    1 - 1 / a ≤ 1 - 1 / b :=
  sub_le_sub_left (one_div_le_one_div_of_le ha hab) 1

theorem pow_le_one_of_abs_le {x : ℝ} (h : |x| ≤ 1) (n : ℕ) : x ^ n ≤ 1 :=
  calc x ^ n ≤ |x ^ n| := le_abs_self _
    _ = |x| ^ n := abs_pow x n
    _ ≤ 1 := pow_le_one₀ (abs_nonneg x) h

theorem range_of_min_cap {x : ℝ} (hx : x ≤ 1) :
    0 ≤ min (1 - x) (0.9999 : ℝ) ∧ min (1 - x) (0.9999 : ℝ) ≤ 0.9999 :=
  ⟨le_min (by linarith) (by norm_num), min_le_right _ _⟩

/-- Claim C10: when `attempts = 0`, `calculateCumulativeProbability` returns `0`
for every rate, including non-positive rates: the zero-attempts early return
precedes the rate validation, so no error is raised there. -/
theorem c10_zero_attempts_before_validation (dropRate : ℝ) :
    calculateCumulativeProbability 0 dropRate = some 0 := rfl

/-- Claim C1 (amended): with every effective denominator at least `1`
(rate `≥ 1`; mitigation cap `≥ 1` for the pity variants; scaled rate `≥ 1`
for the enrage variant), each cumulative-probability function returns a value
in `[0, 0.9999]`.  For rates below `1` the value can leave the interval
(see the counterexample). -/
theorem c1_probability_range :
    (∀ (t : ℕ) (r : ℝ), 1 ≤ r → ∃ p, calculateCumulativeProbability t r = some p ∧
      0 ≤ p ∧ p ≤ 0.9999) ∧
    (∀ (t : ℕ) (r : ℝ), 1 ≤ r → ∃ p, calculateCumulativeProbabilityWithLuck t r = some p ∧
      0 ≤ p ∧ p ≤ 0.9999) ∧
    (∀ (t s : ℕ) (r c : ℝ), 1 ≤ r → 1 ≤ c →
      ∃ p, calculateCumulativeProbabilityWithBLM t r s c = some p ∧
        0 ≤ p ∧ p ≤ 0.9999) ∧
    (∀ (t s : ℕ) (r c : ℝ), 1 ≤ r → 1 ≤ c →
      ∃ p, calculateCumulativeProbabilityWithLuckAndBLM t r s c = some p ∧
        0 ≤ p ∧ p ≤ 0.9999) ∧
    (∀ (t : ℕ) (boss : EnrageScalingBoss) (e b r : ℝ),
      calculateEnrageScaledDropRate boss e b = some r → 1 ≤ r →
      ∃ p, calculateCumulativeProbabilityWithEnrage t boss e b = some p ∧
        0 ≤ p ∧ p ≤ 0.9999) := by
  have hM : MAX_PROBABILITY = (0.9999 : ℝ) := rfl
  have hL : (0 : ℝ) < LOTD_MULTIPLIER := by norm_num [LOTD_MULTIPLIER]
  have hL2 : LOTD_MULTIPLIER ≤ (2 : ℝ) := by norm_num [LOTD_MULTIPLIER]
  have plain : ∀ (t : ℕ) (r : ℝ), 1 ≤ r →
      ∃ p, calculateCumulativeProbability t r = some p ∧ 0 ≤ p ∧ p ≤ 0.9999 := by
    intro t r hr
    have hr0 : 0 < r := lt_of_lt_of_le one_pos hr
    rcases Nat.eq_zero_or_pos t with ht | ht
    · exact ⟨0, by simp [ht, calculateCumulativeProbability], le_rfl, by norm_num⟩
    · have heq := calculateCumulativeProbability_eq (Nat.pos_iff_ne_zero.mp ht) hr0
      refine ⟨_, heq, ?_⟩
      rw [hM]
      exact range_of_min_cap (pow_le_one₀ (factor_nonneg hr) (factor_lt_one hr0).le)
  refine ⟨plain, ?_, ?_, ?_, ?_⟩
  · intro t r hr
    have hr0 : 0 < r := lt_of_lt_of_le one_pos hr
    have h1 : ¬ (r ≤ 0) := not_le.mpr hr0
    have hd' : 0 < r / LOTD_MULTIPLIER := by positivity
    have hstep : calculateCumulativeProbabilityWithLuck t r =
        calculateCumulativeProbability t (r / LOTD_MULTIPLIER) := by
      simp [calculateCumulativeProbabilityWithLuck, applyLuckToDropRate, h1]
    rcases Nat.eq_zero_or_pos t with ht | ht
    · exact ⟨0, by subst ht; exact hstep.trans rfl, le_rfl, by norm_num⟩
    · have heq := calculateCumulativeProbability_eq (Nat.pos_iff_ne_zero.mp ht) hd'
      refine ⟨_, hstep.trans heq, ?_⟩
      rw [hM]
      refine range_of_min_cap (pow_le_one_of_abs_le ?_ t)
      have hinv : 1 / (r / LOTD_MULTIPLIER) = LOTD_MULTIPLIER / r := one_div_div _ _
      have hle : LOTD_MULTIPLIER / r ≤ LOTD_MULTIPLIER := div_le_self hL.le hr
      have hpos : 0 < LOTD_MULTIPLIER / r := by positivity
      rw [hinv, abs_le]
      exact ⟨by linarith, by linarith⟩
  · intro t s r c hr hc
    have hr0 : 0 < r := lt_of_lt_of_le one_pos hr
    have hc0 : 0 < c := lt_of_lt_of_le one_pos hc
    rcases Nat.eq_zero_or_pos t with ht | ht
    · exact ⟨0, by simp [ht, calculateCumulativeProbabilityWithBLM], le_rfl, by norm_num⟩
    · have heq : calculateCumulativeProbabilityWithBLM t r s c =
          some (min (1 - ∏ k ∈ Finset.range t, (1 - 1 / killDen (k + 1) r s c)) 0.9999) := by
        rw [calculateCumulativeProbabilityWithBLM, if_neg (Nat.pos_iff_ne_zero.mp ht),
          blmFold_eq t hr0 s hc0, Option.map_some']
      refine ⟨_, heq, ?_⟩
      refine range_of_min_cap (Finset.prod_le_one ?_ ?_)
      · exact fun k _ => factor_nonneg (one_le_killDen hr hc)
      · exact fun k _ => (factor_lt_one (lt_of_lt_of_le one_pos (one_le_killDen hr hc))).le
  · intro t s r c hr hc
    have hr0 : 0 < r := lt_of_lt_of_le one_pos hr
    have hc0 : 0 < c := lt_of_lt_of_le one_pos hc
    rcases Nat.eq_zero_or_pos t with ht | ht
    · exact ⟨0, by simp [ht, calculateCumulativeProbabilityWithLuckAndBLM],
        le_rfl, by norm_num⟩
    · have hd' : 0 < r / LOTD_MULTIPLIER := by positivity
      have hc' : 0 < c / LOTD_MULTIPLIER := by positivity
      have hlow : (1 / LOTD_MULTIPLIER : ℝ) ≤
          min (r / LOTD_MULTIPLIER) (c / LOTD_MULTIPLIER) :=
        le_min ((div_le_div_iff_of_pos_right hL).mpr hr)
          ((div_le_div_iff_of_pos_right hL).mpr hc)
      have heq : calculateCumulativeProbabilityWithLuckAndBLM t r s c =
          some (min (1 - ∏ k ∈ Finset.range t,
            (1 - 1 / killDen (k + 1) (r / LOTD_MULTIPLIER) s (c / LOTD_MULTIPLIER)))
            0.9999) := by
        simp only [calculateCumulativeProbabilityWithLuckAndBLM,
          if_neg (Nat.pos_iff_ne_zero.mp ht), applyLuckToDropRate,
          if_neg (not_le.mpr hr0), if_neg (not_le.mpr hc0),
          blmFold_eq t hd' s hc', Option.map_some']
      refine ⟨_, heq, ?_⟩
      refine range_of_min_cap ?_
      have habs : ∀ k : ℕ,
          |1 - 1 / killDen (k + 1) (r / LOTD_MULTIPLIER) s (c / LOTD_MULTIPLIER)| ≤ 1 := by
        intro k
        have hkd : (1 / LOTD_MULTIPLIER : ℝ) ≤
            killDen (k + 1) (r / LOTD_MULTIPLIER) s (c / LOTD_MULTIPLIER) :=
          le_trans hlow killDen_ge_min
        have hinv : 1 / killDen (k + 1) (r / LOTD_MULTIPLIER) s (c / LOTD_MULTIPLIER) ≤
            LOTD_MULTIPLIER := by
          have h := one_div_le_one_div_of_le (by positivity) hkd
          rwa [one_div_one_div] at h
        have hkd0 : (0:ℝ) < killDen (k + 1) (r / LOTD_MULTIPLIER) s (c / LOTD_MULTIPLIER) :=
          lt_of_lt_of_le (by positivity) hkd
        have hinv0 : 0 < 1 / killDen (k + 1) (r / LOTD_MULTIPLIER) s (c / LOTD_MULTIPLIER) :=
          one_div_pos.mpr hkd0
        rw [abs_le]
        exact ⟨by linarith, by linarith⟩
      calc (∏ k ∈ Finset.range t,
            (1 - 1 / killDen (k + 1) (r / LOTD_MULTIPLIER) s (c / LOTD_MULTIPLIER)))
          ≤ |∏ k ∈ Finset.range t,
            (1 - 1 / killDen (k + 1) (r / LOTD_MULTIPLIER) s (c / LOTD_MULTIPLIER))| :=
            le_abs_self _
        _ = ∏ k ∈ Finset.range t,
            |1 - 1 / killDen (k + 1) (r / LOTD_MULTIPLIER) s (c / LOTD_MULTIPLIER)| :=
            Finset.abs_prod _ _
        _ ≤ 1 := Finset.prod_le_one (fun k _ => abs_nonneg _) (fun k _ => habs k)
  · intro t boss e b r hsc hr
    rcases Nat.eq_zero_or_pos t with ht | ht
    · exact ⟨0, by simp [ht, calculateCumulativeProbabilityWithEnrage],
        le_rfl, by norm_num⟩
    · have hr0 : 0 < r := lt_of_lt_of_le one_pos hr
      have heq : calculateCumulativeProbabilityWithEnrage t boss e b =
          some (min (1 - (1 - 1 / r) ^ t) 0.9999) := by
        rw [calculateCumulativeProbabilityWithEnrage,
          if_neg (Nat.pos_iff_ne_zero.mp ht), hsc, Option.map_some']
      refine ⟨_, heq, ?_⟩
      exact range_of_min_cap (pow_le_one₀ (factor_nonneg hr) (factor_lt_one hr0).le)

/-- Claim C1 counterexample: at rate `1/3 > 0` and `2` attempts the code
returns `-3`, far outside `[0, 0.9999]`. -/
theorem c1_counterexample :
    calculateCumulativeProbability 2 (1 / 3) = some (-3) ∧ ((-3 : ℝ) < 0) := by
  constructor
  · rw [calculateCumulativeProbability_eq (by norm_num) (by norm_num : (0:ℝ) < 1/3)]
    norm_num [MAX_PROBABILITY, min_def]
  · norm_num

/-- Claim C1 witness: the amended range theorem applied at concrete inputs. -/
theorem c1_witness :
    ((1 : ℝ) ≤ 128 ∧
      ∃ p, calculateCumulativeProbability 100 128 = some p ∧ 0 ≤ p ∧ p ≤ 0.9999) ∧
    (∃ p, calculateCumulativeProbabilityWithLuck 100 128 = some p ∧ 0 ≤ p ∧ p ≤ 0.9999) ∧
    (∃ p, calculateCumulativeProbabilityWithBLM 100 128 10 20 = some p ∧
      0 ≤ p ∧ p ≤ 0.9999) ∧
    (∃ p, calculateCumulativeProbabilityWithLuckAndBLM 100 128 10 20 = some p ∧
      0 ≤ p ∧ p ≤ 0.9999) := by
  have h : (1 : ℝ) ≤ 128 := by norm_num
  have hc : (1 : ℝ) ≤ 20 := by norm_num
  exact ⟨⟨h, c1_probability_range.1 100 128 h⟩,
    c1_probability_range.2.1 100 128 h,
    c1_probability_range.2.2.1 100 10 128 20 h hc,
    c1_probability_range.2.2.2.1 100 10 128 20 h hc⟩

/-- Shared evaluation: the pity schedule at kill 15 with base 128, start 10,
cap 20 yields denominator `128 - (15 - 10) = 123`. -/
theorem getDropRateForKill_at_15 :
    getDropRateForKill 15 128 10 20 = some (123 : ℝ) := by
  rw [getDropRateForKill_eq (by norm_num) (by norm_num : (0:ℝ) < 128) 10
    (by norm_num : (0:ℝ) < 20)]
  norm_num [killDen, max_def]

/-- Claim C7 counterexample: the code returns `123`, not `124`, at kill 15
(its own unit test asserts `123`; the docstring example saying `124` is the
slip the spec copied). -/
theorem c7_counterexample :
    getDropRateForKill 15 128 10 20 ≠ some (124 : ℝ) := by
  rw [getDropRateForKill_at_15]
  intro h
  exact absurd (Option.some.inj h) (by norm_num)

/-- Claim C7 (amended): `getDropRateForKill(15, 128, 10, 20) = 123`,
matching the formula `max(base - (kill - start), cap)` and the unit test. -/
theorem c7_pity_rate_at_15 :
    getDropRateForKill 15 128 10 20 = some (123 : ℝ) :=
  getDropRateForKill_at_15

/-- Claim C3 counterexample (the spec's own second example): for the compound
config `(6, 128, 5, 12)` the effective rate is `51.2 = 256/5`, strictly below
`max(stageOneDenominator, totalWeight) = 128`. -/
theorem c3_counterexample :
    calculateTableBasedDropRate 6 128 5 12 = some ((256 : ℝ) / 5) ∧
      ((256 : ℝ) / 5 < max 128 12) := by
  constructor
  · simp only [calculateTableBasedDropRate, calculateTableHitProbability,
      calculateItemFromTableProbability]
    norm_num
  · norm_num [max_def]

/-- Claim C3 (amended): for every valid compound config the effective rate is
at least `max(stageOneDenominator / stageOneNumerator, totalWeight / itemWeight)`
— the compound rate is never better than either stage's own rate. -/
theorem c3_compound_rate_bound (n d w W : ℝ) (hn : 0 < n) (hd : 0 < d)
    (hw : 0 < w) (hW : 0 < W) (hnd : n ≤ d) (hwW : w ≤ W) :
    ∃ r, calculateTableBasedDropRate n d w W = some r ∧ max (d / n) (W / w) ≤ r := by
  have h1 : ¬ (n ≤ 0 ∨ d ≤ 0) := by push_neg; exact ⟨hn, hd⟩
  have h2 : ¬ (d < n) := not_lt.mpr hnd
  have h3 : ¬ (w ≤ 0 ∨ W ≤ 0) := by push_neg; exact ⟨hw, hW⟩
  have h4 : ¬ (W < w) := not_lt.mpr hwW
  have heq : calculateTableBasedDropRate n d w W = some (1 / (n / d * (w / W))) := by
    simp only [calculateTableBasedDropRate, calculateTableHitProbability,
      calculateItemFromTableProbability, if_neg h1, if_neg h2, if_neg h3, if_neg h4]
  refine ⟨_, heq, ?_⟩
  have hval : 1 / (n / d * (w / W)) = d / n * (W / w) := by
    field_simp
  rw [hval]
  refine max_le ?_ ?_
  · exact le_mul_of_one_le_right (by positivity) ((one_le_div hw).mpr hwW)
  · exact le_mul_of_one_le_left (by positivity) ((one_le_div hn).mpr hnd)

/-- Claim C3 witness: the bound at the Nex Torva config `(6, 128, 2, 12)`. -/
theorem c3_witness :
    (0 : ℝ) < 6 ∧ (0 : ℝ) < 128 ∧ (0 : ℝ) < 2 ∧ (0 : ℝ) < 12 ∧
      (6 : ℝ) ≤ 128 ∧ (2 : ℝ) ≤ 12 ∧
      ∃ r, calculateTableBasedDropRate 6 128 2 12 = some r ∧
        max ((128 : ℝ) / 6) ((12 : ℝ) / 2) ≤ r :=
  ⟨by norm_num, by norm_num, by norm_num, by norm_num, by norm_num, by norm_num,
    c3_compound_rate_bound 6 128 2 12 (by norm_num) (by norm_num) (by norm_num)
      (by norm_num) (by norm_num) (by norm_num)⟩

/-- Monotonicity of the placeholder enrage formulas: `base / (1 + p / k)` is
non-increasing in `p` on `p ≥ 0`. -/
theorem enrage_formula_mono (base k p1 p2 : ℝ) (hb : 0 < base) (hk : 0 < k)
    (h1 : 0 ≤ p1) (h12 : p1 ≤ p2) :
    base / (1 + p2 / k) ≤ base / (1 + p1 / k) := by
  have d1 : (0:ℝ) < 1 + p1 / k := by positivity
  have d2 : 1 + p1 / k ≤ 1 + p2 / k := by
    have h := (div_le_div_iff_of_pos_right hk).mpr h12
    linarith
  exact div_le_div_of_nonneg_left hb.le d1 d2

/-- Claim C6: each enrage formula returns the base rate at enrage `0` and is
monotone non-increasing in the enrage parameter over its declared domain. -/
theorem c6_enrage_identity_and_monotone :
    ∀ (boss : EnrageScalingBoss) (base : ℝ), 0 < base →
      calculateEnrageScaledDropRate boss 0 base = some base ∧
      ∀ p1 p2 : ℝ, enrageDomain boss p1 → enrageDomain boss p2 → p1 < p2 →
        ∃ r1 r2, calculateEnrageScaledDropRate boss p1 base = some r1 ∧
          calculateEnrageScaledDropRate boss p2 base = some r2 ∧ r2 ≤ r1 := by
  intro boss base hb
  cases boss with
  | telos =>
    constructor
    · show calculateTelosDropRate 0 base = some base
      rw [calculateTelosDropRate, if_neg (by norm_num)]
      norm_num
    · rintro p1 p2 ⟨h10, h11⟩ ⟨h20, h21⟩ h12
      refine ⟨base / (1 + p1 / 1000), base / (1 + p2 / 1000), ?_, ?_, ?_⟩
      · show calculateTelosDropRate p1 base = _
        rw [calculateTelosDropRate, if_neg (by push_neg; exact ⟨h10, h11⟩)]
      · show calculateTelosDropRate p2 base = _
        rw [calculateTelosDropRate, if_neg (by push_neg; exact ⟨h20, h21⟩)]
      · exact enrage_formula_mono base 1000 p1 p2 hb (by norm_num) h10 h12.le
  | zamorak =>
    constructor
    · show calculateZamorakDropRate 0 base = some base
      rw [calculateZamorakDropRate, if_neg (by norm_num)]
      norm_num
    · rintro p1 p2 ⟨h10, h11⟩ ⟨h20, h21⟩ h12
      refine ⟨base / (1 + p1 / 800), base / (1 + p2 / 800), ?_, ?_, ?_⟩
      · show calculateZamorakDropRate p1 base = _
        rw [calculateZamorakDropRate, if_neg (by push_neg; exact ⟨h10, h11⟩)]
      · show calculateZamorakDropRate p2 base = _
        rw [calculateZamorakDropRate, if_neg (by push_neg; exact ⟨h20, h21⟩)]
      · exact enrage_formula_mono base 800 p1 p2 hb (by norm_num) h10 h12.le
  | arch_glacor =>
    constructor
    · show calculateArchGlacorDropRate 0 base = some base
      rw [calculateArchGlacorDropRate, if_neg (by norm_num)]
      norm_num
    · intro p1 p2 h10 h20 h12
      refine ⟨base / (1 + p1 / 1200), base / (1 + p2 / 1200), ?_, ?_, ?_⟩
      · show calculateArchGlacorDropRate p1 base = _
        rw [calculateArchGlacorDropRate, if_neg (not_lt.mpr h10)]
      · show calculateArchGlacorDropRate p2 base = _
        rw [calculateArchGlacorDropRate, if_neg (not_lt.mpr h20)]
      · exact enrage_formula_mono base 1200 p1 p2 hb (by norm_num) h10 h12.le

/-- Claim C6 witness: identity at enrage 0 for Telos with base rate 128,
and monotonicity between enrage 100 and 200. -/
theorem c6_witness :
    (0 : ℝ) < 128 ∧
      calculateEnrageScaledDropRate EnrageScalingBoss.telos 0 128 = some 128 ∧
      ∃ r1 r2, calculateEnrageScaledDropRate EnrageScalingBoss.telos 100 128 = some r1 ∧
        calculateEnrageScaledDropRate EnrageScalingBoss.telos 200 128 = some r2 ∧ r2 ≤ r1 := by
  have h := c6_enrage_identity_and_monotone EnrageScalingBoss.telos 128 (by norm_num)
  exact ⟨by norm_num, h.1,
    h.2 100 200 (by constructor <;> norm_num) (by constructor <;> norm_num) (by norm_num)⟩

/-- Pointwise comparison of no-drop products: smaller per-kill denominators
(still at least 1) give a smaller product. -/
theorem prod_factors_mono {t : ℕ} {a b : ℕ → ℝ}
    (h1 : ∀ k ∈ Finset.range t, 1 ≤ a k) (hle : ∀ k ∈ Finset.range t, a k ≤ b k) :
    ∏ k ∈ Finset.range t, (1 - 1 / a k) ≤ ∏ k ∈ Finset.range t, (1 - 1 / b k) :=
  Finset.prod_le_prod (fun k hk => factor_nonneg (h1 k hk))
    (fun k hk => factor_le_factor (lt_of_lt_of_le one_pos (h1 k hk)) (hle k hk))

/-- Claim C4 (amended): with mitigation cap `≥ 1` the pity probability never
drops below the plain cumulative probability; the two agree for
`trials ≤ start`; and the pity value is strictly larger once `trials > start`,
provided `cap < baseDenominator` and the plain value has not saturated at the
`0.9999` cap. -/
theorem c4_pity_never_worse (t : ℕ) (d : ℝ) (s : ℕ) (c : ℝ)
    (hc1 : 1 ≤ c) (hcd : c ≤ d) :
    ∃ p q, calculateCumulativeProbabilityWithBLM t d s c = some p ∧
      calculateCumulativeProbability t d = some q ∧
      q ≤ p ∧ (t ≤ s → p = q) ∧
      (s < t → c < d → q < 0.9999 → q < p) := by
  have hd1 : 1 ≤ d := hc1.trans hcd
  have hd0 : 0 < d := lt_of_lt_of_le one_pos hd1
  have hc0 : 0 < c := lt_of_lt_of_le one_pos hc1
  rcases Nat.eq_zero_or_pos t with ht | ht
  · subst ht
    exact ⟨0, 0, rfl, rfl, le_rfl, fun _ => rfl, fun h => absurd h (Nat.not_lt_zero s)⟩
  · have ht0 : t ≠ 0 := Nat.pos_iff_ne_zero.mp ht
    have heqB : calculateCumulativeProbabilityWithBLM t d s c =
        some (min (1 - ∏ k ∈ Finset.range t, (1 - 1 / killDen (k+1) d s c)) 0.9999) := by
      rw [calculateCumulativeProbabilityWithBLM, if_neg ht0, blmFold_eq t hd0 s hc0,
        Option.map_some']
    have heqQ : calculateCumulativeProbability t d =
        some (min (1 - (1 - 1/d) ^ t) 0.9999) :=
      calculateCumulativeProbability_eq ht0 hd0
    have hPF : (∏ k ∈ Finset.range t, (1 - 1 / killDen (k+1) d s c)) ≤ (1 - 1/d) ^ t := by
      calc (∏ k ∈ Finset.range t, (1 - 1 / killDen (k+1) d s c))
          ≤ ∏ _k ∈ Finset.range t, (1 - 1/d) :=
            prod_factors_mono (fun k _ => one_le_killDen hd1 hc1)
              (fun k _ => killDen_le_base hcd)
        _ = (1 - 1/d) ^ t := by rw [Finset.prod_const, Finset.card_range]
    refine ⟨_, _, heqB, heqQ, ?_, ?_, ?_⟩
    · exact min_le_min (by linarith) le_rfl
    · intro hts
      have hPeq : (∏ k ∈ Finset.range t, (1 - 1 / killDen (k+1) d s c)) = (1 - 1/d) ^ t := by
        have hcg : ∀ k ∈ Finset.range t, (1 - 1 / killDen (k+1) d s c) = (1 - 1/d) := by
          intro k hk
          have hk' : k + 1 ≤ s := le_trans (Nat.succ_le_of_lt (Finset.mem_range.mp hk)) hts
          rw [killDen, if_pos hk']
        rw [Finset.prod_congr rfl hcg, Finset.prod_const, Finset.card_range]
      rw [hPeq]
    · intro hst hcd' hq
      have hraw : 1 - (1 - 1/d) ^ t < 0.9999 := by
        rcases min_lt_iff.mp hq with h | h
        · exact h
        · exact absurd h (lt_irrefl _)
      have hd1' : 1 < d := lt_of_le_of_lt hc1 hcd'
      have hF0 : 0 < 1 - 1/d := by
        have hlt : 1/d < 1 := by rw [div_lt_one hd0]; exact hd1'
        linarith
      have hks : killDen (s+1) d s c < d := by
        rw [killDen, if_neg (by omega)]
        have h1 : ((s + 1 - s : ℕ) : ℝ) = 1 := by
          have hs : s + 1 - s = 1 := by omega
          rw [hs]; norm_num
        rw [h1]
        exact max_lt (by linarith) hcd'
      have hks0 : 0 < killDen (s+1) d s c :=
        lt_of_lt_of_le one_pos (one_le_killDen hd1 hc1)
      have hfs : 1 - 1 / killDen (s+1) d s c < 1 - 1/d := by
        have hdiv := one_div_lt_one_div_of_lt hks0 hks
        linarith
      have hmem : s ∈ Finset.range t := Finset.mem_range.mpr hst
      have hsplit : (∏ k ∈ Finset.range t, (1 - 1 / killDen (k+1) d s c)) =
          (1 - 1 / killDen (s+1) d s c) *
            ∏ k ∈ (Finset.range t).erase s, (1 - 1 / killDen (k+1) d s c) :=
        (Finset.mul_prod_erase _ _ hmem).symm
      have herase : (∏ k ∈ (Finset.range t).erase s, (1 - 1 / killDen (k+1) d s c)) ≤
          (1 - 1/d) ^ (t - 1) := by
        calc (∏ k ∈ (Finset.range t).erase s, (1 - 1 / killDen (k+1) d s c))
            ≤ ∏ _k ∈ (Finset.range t).erase s, (1 - 1/d) :=
              Finset.prod_le_prod (fun k _ => factor_nonneg (one_le_killDen hd1 hc1))
                (fun k _ => factor_le_factor (lt_of_lt_of_le one_pos (one_le_killDen hd1 hc1))
                  (killDen_le_base hcd))
          _ = (1 - 1/d) ^ (t - 1) := by
              rw [Finset.prod_const, Finset.card_erase_of_mem hmem, Finset.card_range]
      have hpowt : (1 - 1/d) ^ t = (1 - 1/d) * (1 - 1/d) ^ (t - 1) := by
        conv_lhs => rw [← Nat.sub_add_cancel (Nat.one_le_iff_ne_zero.mpr ht0)]
        rw [pow_succ]
        ring
      have hprodlt : (∏ k ∈ Finset.range t, (1 - 1 / killDen (k+1) d s c)) <
          (1 - 1/d) ^ t := by
        calc (∏ k ∈ Finset.range t, (1 - 1 / killDen (k+1) d s c))
            = (1 - 1 / killDen (s+1) d s c) *
              ∏ k ∈ (Finset.range t).erase s, (1 - 1 / killDen (k+1) d s c) := hsplit
          _ ≤ (1 - 1 / killDen (s+1) d s c) * (1 - 1/d) ^ (t - 1) :=
              mul_le_mul_of_nonneg_left herase (factor_nonneg (one_le_killDen hd1 hc1))
          _ < (1 - 1/d) * (1 - 1/d) ^ (t - 1) :=
              mul_lt_mul_of_pos_right hfs (pow_pos hF0 _)
          _ = (1 - 1/d) ^ t := hpowt.symm
      have hqeq : min (1 - (1 - 1/d) ^ t) (0.9999:ℝ) = 1 - (1 - 1/d) ^ t :=
        min_eq_left hraw.le
      rw [hqeq]
      exact lt_min (by linarith) hraw

/-- Claim C4 counterexample: with cap `3/10 ∈ (0, baseDenominator]` the pity
fold produces factors below `-1` whose product exceeds the base no-drop
probability, so the pity probability `8/15` is *smaller* than the plain
probability `1776/2401` at 4 trials, rate `7/2`, start `0`, cap `3/10`. -/
theorem c4_counterexample :
    calculateCumulativeProbabilityWithBLM 4 (7/2) 0 (3/10) = some ((8:ℝ)/15) ∧
      calculateCumulativeProbability 4 (7/2) = some ((1776:ℝ)/2401) ∧
      ((8:ℝ)/15 < (1776:ℝ)/2401) := by
  refine ⟨?_, ?_, by norm_num⟩
  · rw [calculateCumulativeProbabilityWithBLM, if_neg (by norm_num),
      blmFold_eq 4 (by norm_num) 0 (by norm_num), Option.map_some']
    norm_num [Finset.prod_range_succ, killDen, max_def, min_def]
  · rw [calculateCumulativeProbability_eq (by norm_num) (by norm_num : (0:ℝ) < 7/2)]
    norm_num [MAX_PROBABILITY, min_def]

/-- Claim C4 witness: the amended comparison at 11 trials, rate 128,
start 10, cap 20. -/
theorem c4_witness :
    (1:ℝ) ≤ 20 ∧ (20:ℝ) ≤ 128 ∧
      ∃ p q, calculateCumulativeProbabilityWithBLM 11 128 10 20 = some p ∧
        calculateCumulativeProbability 11 128 = some q ∧
        q ≤ p ∧ (11 ≤ 10 → p = q) ∧
        (10 < 11 → (20:ℝ) < 128 → q < 0.9999 → q < p) :=
  ⟨by norm_num, by norm_num, c4_pity_never_worse 11 128 10 20 (by norm_num) (by norm_num)⟩

theorem withLuck_eq (t : ℕ) {d : ℝ} (hd : 0 < d) :
    calculateCumulativeProbabilityWithLuck t d =
      calculateCumulativeProbability t (d / LOTD_MULTIPLIER) := by
  simp [calculateCumulativeProbabilityWithLuck, applyLuckToDropRate, not_le.mpr hd]

theorem withBLM_eq (t : ℕ) {d c : ℝ} (hd : 0 < d) (hc : 0 < c) (s : ℕ) (ht : t ≠ 0) :
    calculateCumulativeProbabilityWithBLM t d s c =
      some (min (1 - ∏ k ∈ Finset.range t, (1 - 1 / killDen (k+1) d s c)) 0.9999) := by
  rw [calculateCumulativeProbabilityWithBLM, if_neg ht, blmFold_eq t hd s hc,
    Option.map_some']

theorem withLuckAndBLM_eq (t : ℕ) {d c : ℝ} (hd : 0 < d) (hc : 0 < c) (s : ℕ)
    (ht : t ≠ 0) :
    calculateCumulativeProbabilityWithLuckAndBLM t d s c =
      some (min (1 - ∏ k ∈ Finset.range t,
        (1 - 1 / killDen (k+1) (d / LOTD_MULTIPLIER) s (c / LOTD_MULTIPLIER))) 0.9999) := by
  have hL : (0:ℝ) < LOTD_MULTIPLIER := by norm_num [LOTD_MULTIPLIER]
  simp only [calculateCumulativeProbabilityWithLuckAndBLM, if_neg ht,
    applyLuckToDropRate, if_neg (not_le.mpr hd), if_neg (not_le.mpr hc),
    blmFold_eq t (div_pos hd hL) s (div_pos hc hL), Option.map_some']

/-- Claim C5 (amended): with mitigation cap at least the luck multiplier
(`1.01`), the `compareAllModifiers` record satisfies
`withBoth ≥ withLuck`, `withBoth ≥ withBLM` and `withBoth ≥ base`. -/
theorem c5_combined_dominates (t : ℕ) (d : ℝ) (s : ℕ) (c : ℝ)
    (hc1 : LOTD_MULTIPLIER ≤ c) (hcd : c ≤ d) :
    ∃ m, compareAllModifiers t d s c = some m ∧
      m.withLuck ≤ m.withBoth ∧ m.withBLM ≤ m.withBoth ∧ m.base ≤ m.withBoth := by
  have hL : (0:ℝ) < LOTD_MULTIPLIER := by norm_num [LOTD_MULTIPLIER]
  have hL1 : (1:ℝ) ≤ LOTD_MULTIPLIER := by norm_num [LOTD_MULTIPLIER]
  have hc1' : 1 ≤ c := hL1.trans hc1
  have hd1 : 1 ≤ d := hc1'.trans hcd
  have hd0 : 0 < d := lt_of_lt_of_le one_pos hd1
  have hc0 : 0 < c := lt_of_lt_of_le one_pos hc1'
  have hcq1 : 1 ≤ c / LOTD_MULTIPLIER := (one_le_div hL).mpr hc1
  have hcqdq : c / LOTD_MULTIPLIER ≤ d / LOTD_MULTIPLIER :=
    (div_le_div_iff_of_pos_right hL).mpr hcd
  have hdq1 : 1 ≤ d / LOTD_MULTIPLIER := hcq1.trans hcqdq
  have hdq0 : 0 < d / LOTD_MULTIPLIER := lt_of_lt_of_le one_pos hdq1
  have hdqd : d / LOTD_MULTIPLIER ≤ d := div_le_self hd0.le hL1
  have hcqc : c / LOTD_MULTIPLIER ≤ c := div_le_self hc0.le hL1
  rcases Nat.eq_zero_or_pos t with ht | ht
  · subst ht
    have e2 : calculateCumulativeProbabilityWithLuck 0 d = some 0 :=
      (withLuck_eq 0 hd0).trans rfl
    have hcmp : compareAllModifiers 0 d s c =
        some ⟨0, 0, 0, 0, 0 - 0, 0 - 0, 0 - 0⟩ := by
      simp only [compareAllModifiers, e2]
      rfl
    exact ⟨_, hcmp, le_rfl, le_rfl, le_rfl⟩
  · have ht0 : t ≠ 0 := Nat.pos_iff_ne_zero.mp ht
    have e1 : calculateCumulativeProbability t d =
        some (min (1 - (1 - 1/d) ^ t) 0.9999) :=
      calculateCumulativeProbability_eq ht0 hd0
    have e2 : calculateCumulativeProbabilityWithLuck t d =
        some (min (1 - (1 - 1/(d / LOTD_MULTIPLIER)) ^ t) 0.9999) :=
      (withLuck_eq t hd0).trans (calculateCumulativeProbability_eq ht0 hdq0)
    have e3 := withBLM_eq t hd0 hc0 s ht0
    have e4 := withLuckAndBLM_eq t hd0 hc0 s ht0
    have hcmp : compareAllModifiers t d s c = some
        ⟨min (1 - (1 - 1/d) ^ t) 0.9999,
          min (1 - (1 - 1/(d / LOTD_MULTIPLIER)) ^ t) 0.9999,
          min (1 - ∏ k ∈ Finset.range t, (1 - 1 / killDen (k+1) d s c)) 0.9999,
          min (1 - ∏ k ∈ Finset.range t,
            (1 - 1 / killDen (k+1) (d / LOTD_MULTIPLIER) s (c / LOTD_MULTIPLIER))) 0.9999,
          min (1 - (1 - 1/(d / LOTD_MULTIPLIER)) ^ t) 0.9999 -
            min (1 - (1 - 1/d) ^ t) 0.9999,
          min (1 - ∏ k ∈ Finset.range t, (1 - 1 / killDen (k+1) d s c)) 0.9999 -
            min (1 - (1 - 1/d) ^ t) 0.9999,
          min (1 - ∏ k ∈ Finset.range t,
            (1 - 1 / killDen (k+1) (d / LOTD_MULTIPLIER) s (c / LOTD_MULTIPLIER))) 0.9999 -
            min (1 - (1 - 1/d) ^ t) 0.9999⟩ := by
      simp only [compareAllModifiers, e1, e2, e3, e4]
    have hPq_le_luck : (∏ k ∈ Finset.range t,
        (1 - 1 / killDen (k+1) (d / LOTD_MULTIPLIER) s (c / LOTD_MULTIPLIER))) ≤
          (1 - 1/(d / LOTD_MULTIPLIER)) ^ t := by
      calc (∏ k ∈ Finset.range t,
            (1 - 1 / killDen (k+1) (d / LOTD_MULTIPLIER) s (c / LOTD_MULTIPLIER)))
          ≤ ∏ _k ∈ Finset.range t, (1 - 1/(d / LOTD_MULTIPLIER)) :=
            prod_factors_mono (fun k _ => one_le_killDen hdq1 hcq1)
              (fun k _ => killDen_le_base hcqdq)
        _ = (1 - 1/(d / LOTD_MULTIPLIER)) ^ t := by
            rw [Finset.prod_const, Finset.card_range]
    have hPq_le_blm : (∏ k ∈ Finset.range t,
        (1 - 1 / killDen (k+1) (d / LOTD_MULTIPLIER) s (c / LOTD_MULTIPLIER))) ≤
          ∏ k ∈ Finset.range t, (1 - 1 / killDen (k+1) d s c) :=
      prod_factors_mono (fun k _ => one_le_killDen hdq1 hcq1)
        (fun k _ => killDen_mono hdqd hcqc)
    have hblm_le_base : (∏ k ∈ Finset.range t, (1 - 1 / killDen (k+1) d s c)) ≤
        (1 - 1/d) ^ t := by
      calc (∏ k ∈ Finset.range t, (1 - 1 / killDen (k+1) d s c))
          ≤ ∏ _k ∈ Finset.range t, (1 - 1/d) :=
            prod_factors_mono (fun k _ => one_le_killDen hd1 hc1')
              (fun k _ => killDen_le_base hcd)
        _ = (1 - 1/d) ^ t := by rw [Finset.prod_const, Finset.card_range]
    refine ⟨_, hcmp, ?_, ?_, ?_⟩
    · exact min_le_min (by linarith) le_rfl
    · exact min_le_min (by linarith) le_rfl
    · exact min_le_min (by linarith [hPq_le_blm.trans hblm_le_base]) le_rfl

/-- Claim C5 counterexample: at 4 trials, rate `707/200`, start `0`,
cap `303/1000` (a valid `0 < cap ≤ rate` input) the combined value `8/15`
is strictly below the plain base value. -/
theorem c5_counterexample :
    (compareAllModifiers 4 (707/200) 0 (303/1000)).map ModifierComparison.withBoth =
        some ((8:ℝ)/15) ∧
      (compareAllModifiers 4 (707/200) 0 (303/1000)).map ModifierComparison.base =
        some (1 - ((507:ℝ)/707) ^ 4) ∧
      ((8:ℝ)/15 < 1 - ((507:ℝ)/707) ^ 4) := by
  have e1 : calculateCumulativeProbability 4 (707/200) = some (1 - ((507:ℝ)/707) ^ 4) := by
    rw [calculateCumulativeProbability_eq (by norm_num) (by norm_num : (0:ℝ) < 707/200)]
    norm_num [MAX_PROBABILITY, min_def]
  have e2 : calculateCumulativeProbabilityWithLuck 4 (707/200) = some ((1776:ℝ)/2401) := by
    rw [withLuck_eq 4 (by norm_num : (0:ℝ) < 707/200)]
    have hq : (707:ℝ)/200 / LOTD_MULTIPLIER = 7/2 := by norm_num [LOTD_MULTIPLIER]
    rw [hq, calculateCumulativeProbability_eq (by norm_num) (by norm_num : (0:ℝ) < 7/2)]
    norm_num [MAX_PROBABILITY, min_def]
  have e3 : calculateCumulativeProbabilityWithBLM 4 (707/200) 0 (303/1000) =
      some ((29600:ℝ)/51207) := by
    rw [withBLM_eq 4 (by norm_num : (0:ℝ) < 707/200) (by norm_num : (0:ℝ) < 303/1000) 0
      (by norm_num)]
    norm_num [Finset.prod_range_succ, killDen, max_def, min_def]
  have e4 : calculateCumulativeProbabilityWithLuckAndBLM 4 (707/200) 0 (303/1000) =
      some ((8:ℝ)/15) := by
    rw [withLuckAndBLM_eq 4 (by norm_num : (0:ℝ) < 707/200)
      (by norm_num : (0:ℝ) < 303/1000) 0 (by norm_num)]
    norm_num [LOTD_MULTIPLIER, Finset.prod_range_succ, killDen, max_def, min_def]
  have hcmp : compareAllModifiers 4 (707/200) 0 (303/1000) = some
      ⟨1 - ((507:ℝ)/707) ^ 4, (1776:ℝ)/2401, (29600:ℝ)/51207, (8:ℝ)/15,
        (1776:ℝ)/2401 - (1 - ((507:ℝ)/707) ^ 4),
        (29600:ℝ)/51207 - (1 - ((507:ℝ)/707) ^ 4),
        (8:ℝ)/15 - (1 - ((507:ℝ)/707) ^ 4)⟩ := by
    simp only [compareAllModifiers, e1, e2, e3, e4]
  rw [hcmp]
  refine ⟨rfl, rfl, by norm_num⟩

/-- Claim C5 witness: the amended dominance at 11 trials, rate 128,
start 10, cap 20. -/
theorem c5_witness :
    LOTD_MULTIPLIER ≤ (20:ℝ) ∧ (20:ℝ) ≤ 128 ∧
      ∃ m, compareAllModifiers 11 128 10 20 = some m ∧
        m.withLuck ≤ m.withBoth ∧ m.withBLM ≤ m.withBoth ∧ m.base ≤ m.withBoth :=
  ⟨by norm_num [LOTD_MULTIPLIER], by norm_num,
    c5_combined_dominates 11 128 10 20 (by norm_num [LOTD_MULTIPLIER]) (by norm_num)⟩

/-! ### The closed-form milestone solver -/

theorem log_div_log_le_iff {x y : ℝ} {n : ℤ} (hx0 : 0 < x) (hx1 : x < 1) (hy0 : 0 < y) :
    Real.log y / Real.log x ≤ n ↔ x ^ n ≤ y := by
  have hlx : Real.log x < 0 := Real.log_neg hx0 hx1
  rw [div_le_iff_of_neg hlx, ← Real.log_zpow]
  exact Real.log_le_log_iff (zpow_pos hx0 n) hy0

theorem lt_log_div_log_iff {x y : ℝ} {n : ℤ} (hx0 : 0 < x) (hx1 : x < 1) (hy0 : 0 < y) :
    (n : ℝ) < Real.log y / Real.log x ↔ y < x ^ n := by
  have hlx : Real.log x < 0 := Real.log_neg hx0 hx1
  rw [lt_div_iff_of_neg hlx, ← Real.log_zpow]
  exact Real.log_lt_log_iff hy0 (zpow_pos hx0 n)

theorem ceil_log_ratio {x y : ℝ} {n : ℤ} (hx0 : 0 < x) (hx1 : x < 1) (hy0 : 0 < y)
    (h1 : x ^ n ≤ y) (h2 : y < x ^ (n - 1)) :
    ⌈Real.log y / Real.log x⌉ = n := by
  rw [Int.ceil_eq_iff]
  constructor
  · have h := (lt_log_div_log_iff (n := n - 1) hx0 hx1 hy0).mpr h2
    push_cast at h ⊢
    linarith
  · exact (log_div_log_le_iff hx0 hx1 hy0).mpr h1

/-- On valid input (`0 < t ≤ 0.9999`, `rate > 0`) the milestone solver returns
the ceiling of `log (1 - t) / log (1 - 1/rate)`. -/
theorem milestone_eq {t r : ℝ} (ht0 : 0 < t) (ht1 : t ≤ 0.9999) (hr0 : 0 < r) :
    findMilestoneAttempts t r = some ⌈Real.log (1 - t) / Real.log (1 - 1/r)⌉ := by
  have h1 : ¬ (t ≤ 0 ∨ 1 ≤ t) := by push_neg; exact ⟨ht0, by linarith⟩
  have hmin : min t MAX_PROBABILITY = t := min_eq_left ht1
  simp only [findMilestoneAttempts, if_neg h1, calculateBaseProbability,
    if_neg (not_le.mpr hr0), Option.map_some', hmin]

/-- Claim C2 (amended): for `rate > 1` and target `t ∈ (0, 0.9999]` the
milestone solver returns the minimal sufficient trial count: the cumulative
probability at `n` reaches `t` and at `n - 1` stays below `t`. -/
theorem c2_milestone_minimal (t r : ℝ) (ht0 : 0 < t) (ht1 : t ≤ 0.9999) (hr : 1 < r) :
    ∃ (n : ℤ) (p q : ℝ), findMilestoneAttempts t r = some n ∧ 1 ≤ n ∧
      calculateCumulativeProbability n.toNat r = some p ∧ t ≤ p ∧
      calculateCumulativeProbability (n.toNat - 1) r = some q ∧ q < t := by
  have hr0 : 0 < r := lt_trans one_pos hr
  have hinvlt : 1/r < 1 := by rw [div_lt_one hr0]; exact hr
  have hinv0 : (0:ℝ) < 1/r := by positivity
  have hx0 : 0 < 1 - 1/r := by linarith
  have hx1 : 1 - 1/r < 1 := by linarith
  have hy0 : 0 < 1 - t := by linarith
  have hy1 : 1 - t < 1 := by linarith
  have hmeq := milestone_eq ht0 ht1 hr0
  have hLpos : 0 < Real.log (1 - t) / Real.log (1 - 1/r) :=
    div_pos_iff.mpr (Or.inr ⟨Real.log_neg hy0 hy1, Real.log_neg hx0 hx1⟩)
  have hn1 : 1 ≤ ⌈Real.log (1 - t) / Real.log (1 - 1/r)⌉ := Int.ceil_pos.mpr hLpos
  have hub : Real.log (1 - t) / Real.log (1 - 1/r) ≤
      (⌈Real.log (1 - t) / Real.log (1 - 1/r)⌉ : ℝ) := Int.le_ceil _
  have hlb : ((⌈Real.log (1 - t) / Real.log (1 - 1/r)⌉ : ℤ) : ℝ) - 1 <
      Real.log (1 - t) / Real.log (1 - 1/r) := by
    have h := Int.ceil_lt_add_one (Real.log (1 - t) / Real.log (1 - 1/r))
    linarith
  have hm : ((⌈Real.log (1 - t) / Real.log (1 - 1/r)⌉.toNat : ℤ)) =
      ⌈Real.log (1 - t) / Real.log (1 - 1/r)⌉ :=
    Int.toNat_of_nonneg (by omega)
  have hzp : (1 - 1/r) ^ ⌈Real.log (1 - t) / Real.log (1 - 1/r)⌉ ≤ 1 - t :=
    (log_div_log_le_iff hx0 hx1 hy0).mp hub
  have hzq : 1 - t < (1 - 1/r) ^ (⌈Real.log (1 - t) / Real.log (1 - 1/r)⌉ - 1) :=
    (lt_log_div_log_iff hx0 hx1 hy0).mp (by push_cast; linarith)
  have hmn0 : ⌈Real.log (1 - t) / Real.log (1 - 1/r)⌉.toNat ≠ 0 := by omega
  have hpowm : (1 - 1/r) ^ (⌈Real.log (1 - t) / Real.log (1 - 1/r)⌉.toNat : ℕ) ≤ 1 - t := by
    rw [← zpow_natCast, hm]
    exact hzp
  have hqpart : ∃ q,
      calculateCumulativeProbability (⌈Real.log (1 - t) / Real.log (1 - 1/r)⌉.toNat - 1) r =
        some q ∧ q < t := by
    rcases Nat.eq_zero_or_pos (⌈Real.log (1 - t) / Real.log (1 - 1/r)⌉.toNat - 1) with h0 | h0
    · rw [h0]
      exact ⟨0, rfl, ht0⟩
    · refine ⟨_, calculateCumulativeProbability_eq (Nat.pos_iff_ne_zero.mp h0) hr0, ?_⟩
      have hpow : 1 - t <
          (1 - 1/r) ^ (⌈Real.log (1 - t) / Real.log (1 - 1/r)⌉.toNat - 1 : ℕ) := by
        rw [← zpow_natCast]
        have hcast : ((⌈Real.log (1 - t) / Real.log (1 - 1/r)⌉.toNat - 1 : ℕ) : ℤ) =
            ⌈Real.log (1 - t) / Real.log (1 - 1/r)⌉ - 1 := by omega
        rw [hcast]
        exact hzq
      calc min (1 - (1 - 1/r) ^ (⌈Real.log (1 - t) / Real.log (1 - 1/r)⌉.toNat - 1 : ℕ))
            MAX_PROBABILITY
          ≤ 1 - (1 - 1/r) ^ (⌈Real.log (1 - t) / Real.log (1 - 1/r)⌉.toNat - 1 : ℕ) :=
            min_le_left _ _
        _ < t := by linarith
  obtain ⟨q, hq1, hq2⟩ := hqpart
  exact ⟨⌈Real.log (1 - t) / Real.log (1 - 1/r)⌉, _, q, hmeq, hn1,
    calculateCumulativeProbability_eq hmn0 hr0, le_min (by linarith) ht1, hq1, hq2⟩

/-- Claim C2 counterexample: at rate `1` (allowed by the claim's `rate > 0`)
and target `1/2` the solver returns `0` trials, and the cumulative probability
at `0` trials is `0 < 1/2`, so the post-condition fails. -/
theorem c2_counterexample :
    findMilestoneAttempts (1/2) 1 = some 0 ∧
      calculateCumulativeProbability (0 : ℤ).toNat 1 = some 0 ∧ ¬ ((1:ℝ)/2 ≤ 0) := by
  refine ⟨?_, rfl, by norm_num⟩
  rw [milestone_eq (by norm_num) (by norm_num) (by norm_num)]
  congr 1
  norm_num

/-- Claim C2 witness: the amended minimality at target `1/2`, rate `2`. -/
theorem c2_witness :
    (0:ℝ) < 1/2 ∧ (1:ℝ)/2 ≤ 0.9999 ∧ (1:ℝ) < 2 ∧
      ∃ (n : ℤ) (p q : ℝ), findMilestoneAttempts (1/2) 2 = some n ∧ 1 ≤ n ∧
        calculateCumulativeProbability n.toNat 2 = some p ∧ 1/2 ≤ p ∧
        calculateCumulativeProbability (n.toNat - 1) 2 = some q ∧ q < 1/2 :=
  ⟨by norm_num, by norm_num, by norm_num,
    c2_milestone_minimal (1/2) 2 (by norm_num) (by norm_num) (by norm_num)⟩

/-- Shared evaluation: `findMilestoneAttempts 0.9 128 = 294`
(`(127/128)^294 ≤ 1/10 < (127/128)^293`). -/
theorem milestone_09_128 : findMilestoneAttempts 0.9 128 = some 294 := by
  rw [milestone_eq (by norm_num) (by norm_num) (by norm_num)]
  congr 1
  have h1 : (1:ℝ) - 0.9 = 1/10 := by norm_num
  have h2 : (1:ℝ) - 1/128 = 127/128 := by norm_num
  rw [h1, h2]
  refine ceil_log_ratio (by norm_num) (by norm_num) (by norm_num) ?_ ?_
  · rw [show (294 : ℤ) = ((294 : ℕ) : ℤ) from rfl, zpow_natCast]
    norm_num
  · rw [show (294 : ℤ) - 1 = ((293 : ℕ) : ℤ) by norm_num, zpow_natCast]
    norm_num

/-- Shared evaluation: `findMilestoneAttempts 0.99 128 = 588`
(`(127/128)^588 ≤ 1/100 < (127/128)^587`). -/
theorem milestone_099_128 : findMilestoneAttempts 0.99 128 = some 588 := by
  rw [milestone_eq (by norm_num) (by norm_num) (by norm_num)]
  congr 1
  have h1 : (1:ℝ) - 0.99 = 1/100 := by norm_num
  have h2 : (1:ℝ) - 1/128 = 127/128 := by norm_num
  rw [h1, h2]
  refine ceil_log_ratio (by norm_num) (by norm_num) (by norm_num) ?_ ?_
  · rw [show (588 : ℤ) = ((588 : ℕ) : ℤ) from rfl, zpow_natCast]
    norm_num
  · rw [show (588 : ℤ) - 1 = ((587 : ℕ) : ℤ) by norm_num, zpow_natCast]
    norm_num

/-- Claim C8 counterexample: the solver returns `294` for target `0.9` at
rate `128`, not `295` as claimed (the correct minimal count is `294`:
`1 - (127/128)^294 ≥ 0.9` while `1 - (127/128)^293 < 0.9`). -/
theorem c8_counterexample : findMilestoneAttempts 0.9 128 ≠ some 295 := by
  rw [milestone_09_128]
  intro h
  exact absurd (Option.some.inj h) (by norm_num)

/-- Claim C8 (amended): `findMilestoneAttempts 0.9 128 = 294` and
`findMilestoneAttempts 0.99 128 = 588`. -/
theorem c8_milestones_at_128 :
    findMilestoneAttempts 0.9 128 = some 294 ∧
      findMilestoneAttempts 0.99 128 = some 588 :=
  ⟨milestone_09_128, milestone_099_128⟩

/-! ### The graph sampler -/

theorem attemptLoop_mem {step maxA : ℕ} :
    ∀ (fuel i x : ℕ), x ∈ attemptLoop fuel i step maxA → i ≤ x ∧ x < maxA := by
  intro fuel
  induction fuel with
  | zero => intro i x hx; simp [attemptLoop] at hx
  | succ n ih =>
    intro i x hx
    rw [attemptLoop] at hx
    by_cases h : i < maxA
    · rw [if_pos h] at hx
      rcases List.mem_cons.mp hx with rfl | hx'
      · exact ⟨le_rfl, h⟩
      · obtain ⟨h1, h2⟩ := ih (i + step) x hx'
        exact ⟨le_trans (Nat.le_add_right i step) h1, h2⟩
    · rw [if_neg h] at hx
      simp at hx

theorem attemptLoop_head (step maxA fuel i : ℕ) :
    attemptLoop fuel i step maxA = [] ∨
      ∃ l, attemptLoop fuel i step maxA = i :: l := by
  cases fuel with
  | zero => exact Or.inl rfl
  | succ n =>
    rw [attemptLoop]
    by_cases h : i < maxA
    · exact Or.inr ⟨_, if_pos h⟩
    · exact Or.inl (if_neg h)

theorem attemptLoop_chain {step maxA : ℕ} (hstep : 1 ≤ step) :
    ∀ (fuel i : ℕ), List.Chain' (· < ·) (attemptLoop fuel i step maxA) := by
  intro fuel
  induction fuel with
  | zero => intro i; simp [attemptLoop]
  | succ n ih =>
    intro i
    rw [attemptLoop]
    by_cases h : i < maxA
    · rw [if_pos h, List.chain'_cons']
      refine ⟨?_, ih (i + step)⟩
      intro y hy
      rcases attemptLoop_head step maxA n (i + step) with he | ⟨l, he⟩
      · rw [he] at hy; simp at hy
      · rw [he] at hy
        simp only [List.head?_cons, Option.mem_def, Option.some.injEq] at hy
        omega
    · rw [if_neg h]
      simp

theorem attemptLoop_length (step maxA : ℕ) :
    ∀ (fuel i : ℕ), i ≤ maxA + step →
      (attemptLoop fuel i step maxA).length * step + i ≤ maxA + step := by
  intro fuel
  induction fuel with
  | zero => intro i hi; simpa [attemptLoop] using hi
  | succ n ih =>
    intro i hi
    rw [attemptLoop]
    by_cases h : i < maxA
    · rw [if_pos h]
      have hrec := ih (i + step) (by omega)
      simp only [List.length_cons]
      have harith : ((attemptLoop n (i + step) step maxA).length + 1) * step + i =
          (attemptLoop n (i + step) step maxA).length * step + (i + step) := by ring
      rw [harith]
      exact hrec
    · rw [if_neg h]
      simpa using hi

theorem genStep_pos {maxA P : ℕ} (h1 : 1 ≤ maxA) (h2 : 2 ≤ P) : 1 ≤ genStep maxA P := by
  unfold genStep
  have hq : (0:ℚ) < (maxA : ℚ) / ((P : ℚ) - 1) := by
    apply div_pos
    · exact_mod_cast h1
    · have h2q : (2:ℚ) ≤ (P:ℚ) := by exact_mod_cast h2
      linarith
  have hcpos := Int.ceil_pos.mpr hq
  omega

theorem genStep_mul (maxA P : ℕ) (h2 : 2 ≤ P) : maxA ≤ genStep maxA P * (P - 1) := by
  have hP : (0:ℚ) < (P : ℚ) - 1 := by
    have h2q : (2:ℚ) ≤ (P:ℚ) := by exact_mod_cast h2
    linarith
  have hceil := Int.le_ceil ((maxA : ℚ) / ((P : ℚ) - 1))
  rw [div_le_iff₀ hP] at hceil
  have hnn : (0:ℤ) ≤ ⌈(maxA : ℚ) / ((P : ℚ) - 1)⌉ :=
    Int.ceil_nonneg (by positivity)
  have h1P : (1:ℕ) ≤ P := by omega
  have hPm : ((P - 1 : ℕ) : ℚ) = (P : ℚ) - 1 := by
    push_cast [h1P]
    ring
  have hfinal : (maxA : ℚ) ≤ ((genStep maxA P : ℕ) : ℚ) * ((P - 1 : ℕ) : ℚ) := by
    rw [hPm, genStep]
    calc (maxA : ℚ) ≤ (⌈(maxA : ℚ) / ((P : ℚ) - 1)⌉ : ℚ) * ((P : ℚ) - 1) := hceil
      _ = ((⌈(maxA : ℚ) / ((P : ℚ) - 1)⌉.toNat : ℕ) : ℚ) * ((P : ℚ) - 1) := by
          congr 1
          exact_mod_cast (Int.toNat_of_nonneg hnn).symm
  exact_mod_cast hfinal

theorem generateAttemptValues_eq {maxA P : ℕ} (h1 : 1 ≤ maxA) :
    generateAttemptValues maxA P =
      (0 :: attemptLoop maxA (genStep maxA P) (genStep maxA P) maxA) ++ [maxA] := by
  have hlast : ((0 :: attemptLoop maxA (genStep maxA P) (genStep maxA P) maxA).getLast
      (List.cons_ne_nil 0 _)) ≠ maxA := by
    have hmem := List.getLast_mem
      (l := 0 :: attemptLoop maxA (genStep maxA P) (genStep maxA P) maxA)
      (List.cons_ne_nil 0 _)
    rcases List.mem_cons.mp hmem with h | h
    · omega
    · have hb := attemptLoop_mem maxA (genStep maxA P) _ h
      omega
  simp only [generateAttemptValues]
  rw [if_neg hlast]

/-- Claim C9: for `maxTrials ≥ 1` and `maxPoints ≥ 2` the sampler output is a
strictly ascending sequence starting at `0`, ending at `maxTrials`, of length
at most `maxPoints + 1`. -/
theorem c9_sampler_shape (maxA P : ℕ) (h1 : 1 ≤ maxA) (h2 : 2 ≤ P) :
    List.Chain' (· < ·) (generateAttemptValues maxA P) ∧
      (generateAttemptValues maxA P).head? = some 0 ∧
      (generateAttemptValues maxA P).getLast? = some maxA ∧
      (generateAttemptValues maxA P).length ≤ P + 1 := by
  have hstep := genStep_pos h1 h2
  have heq := generateAttemptValues_eq (P := P) h1
  rw [heq]
  refine ⟨?_, ?_, ?_, ?_⟩
  · rw [List.chain'_append]
    refine ⟨?_, List.chain'_singleton _, ?_⟩
    · rw [List.chain'_cons']
      refine ⟨?_, attemptLoop_chain hstep maxA (genStep maxA P)⟩
      intro y hy
      rcases attemptLoop_head (genStep maxA P) maxA maxA
        (genStep maxA P) with he | ⟨l, he⟩
      · rw [he] at hy; simp at hy
      · rw [he] at hy
        simp only [List.head?_cons, Option.mem_def, Option.some.injEq] at hy
        omega
    · intro x hx y hy
      simp only [List.head?_cons, Option.mem_def, Option.some.injEq] at hy
      subst hy
      rw [List.getLast?_eq_getLast _ (List.cons_ne_nil 0 _), Option.mem_def,
        Option.some.injEq] at hx
      subst hx
      have hmem := List.getLast_mem
        (l := 0 :: attemptLoop maxA (genStep maxA P) (genStep maxA P) maxA)
        (List.cons_ne_nil 0 _)
      rcases List.mem_cons.mp hmem with h | h
      · omega
      · exact (attemptLoop_mem maxA (genStep maxA P) _ h).2
  · rfl
  · exact List.getLast?_concat _
  · have hlen := attemptLoop_length (genStep maxA P) maxA maxA
      (genStep maxA P) (Nat.le_add_left _ _)
    have hmul := genStep_mul maxA P h2
    have hle : (attemptLoop maxA (genStep maxA P) (genStep maxA P) maxA).length *
        genStep maxA P ≤ (P - 1) * genStep maxA P := by
      calc (attemptLoop maxA (genStep maxA P) (genStep maxA P) maxA).length *
            genStep maxA P ≤ maxA := by omega
        _ ≤ genStep maxA P * (P - 1) := hmul
        _ = (P - 1) * genStep maxA P := Nat.mul_comm _ _
    have hcount : (attemptLoop maxA (genStep maxA P) (genStep maxA P) maxA).length ≤
        P - 1 := Nat.le_of_mul_le_mul_right hle (by omega)
    simp only [List.length_append, List.length_cons, List.length_nil]
    omega

/-- Claim C9 witness: the sampler shape at `maxTrials = 5`, `maxPoints = 3`. -/
theorem c9_witness :
    1 ≤ 5 ∧ 2 ≤ 3 ∧
      (List.Chain' (· < ·) (generateAttemptValues 5 3) ∧
        (generateAttemptValues 5 3).head? = some 0 ∧
        (generateAttemptValues 5 3).getLast? = some 5 ∧
        (generateAttemptValues 5 3).length ≤ 3 + 1) :=
  ⟨by norm_num, by norm_num, c9_sampler_shape 5 3 (by norm_num) (by norm_num)⟩

end DropCalc
